import Mathlib

/-!
Shallow embedding of the Olm session engine of this repository
(src/src/session/mod.rs) together with models of the collaborating
modules (double ratchet, KDF chains, AEAD, message codecs) that the
orchestrating file calls into.  The orchestration in `Session.new`,
`Session.new_remote`, `Session.encrypt`, `Session.decrypt`,
`Session.decrypt_prekey`, `Session.decrypt_normal`,
`Session.matches_inbound_session_from` follows src/src/session/mod.rs
line by line; the cryptographic primitives are modelled symbolically
from the specification because their module files are not part of the
sources given.  A Rust panic (an `unwrap` on a failed decode, a
`todo!()` arm, a MAC failure inside the ratchet) is modelled as the
`Option.none` outcome of the corresponding Lean function.
-/

namespace Vodozemac

/-- Modelled from the spec: symbolic byte strings.  The KDF modules
(root_key.rs, chain_key.rs, message_key.rs, shared_secret.rs) are not
under the given sources, so their outputs are modelled as a free term
algebra: every KDF application is a distinct constructor, so distinct
derivations give distinct byte strings and equal derivations give equal
ones (spec 4.2: deterministic, pure functions). -/
inductive SymBytes : Type where
  /-- opaque 3DH shared-secret material (spec 4.1) -/
  | secret (n : Nat)
  /-- root key from the initial shared-secret expansion (spec 4.2 bootstrap) -/
  | expandRoot (s : SymBytes)
  /-- chain key from the initial shared-secret expansion (spec 4.2 bootstrap) -/
  | expandChain (s : SymBytes)
  /-- a Diffie-Hellman output, normalized so both sides compute the same value -/
  | dhOut (a b : Nat)
  /-- new root key from a root-key ratchet step (spec 4.2 advance) -/
  | advRoot (root dhv : SymBytes)
  /-- new chain key from a root-key ratchet step (spec 4.2 advance) -/
  | advChain (root dhv : SymBytes)
  /-- next chain key from a chain-key ratchet step (spec 4.3) -/
  | chainNext (c : SymBytes)
  /-- per-message seed from a chain-key ratchet step (spec 4.3) -/
  | msgSeed (c : SymBytes)
  /-- AEAD encryption key expanded from a message seed (spec 4.4) -/
  | aeadKey (seed : SymBytes)
  /-- MAC key expanded from a message seed (spec 4.4) -/
  | macKey (seed : SymBytes)
  /-- plaintext bytes of a UTF-8 string, identified by an abstract code -/
  | pt (n : Nat)
  deriving DecidableEq

/-- A Curve25519 public key, identified by an abstract numeric value. -/
structure Curve25591PublicKey where
  v : Nat
  deriving DecidableEq

/-- Modelled from the spec: an own ratchet key pair (ratchet.rs is not
under the given sources).  The key pair is identified by an abstract
numeric value that also serves as its public half. -/
structure RatchetKeyPair where
  pid : Nat
  deriving DecidableEq

/-- Modelled from the spec: the peer's ratchet public key (ratchet.rs is
not under the given sources). -/
structure RemoteRatchetKey where
  v : Nat
  deriving DecidableEq

/-- Modelled from the spec: a Diffie-Hellman computation between an own
key pair and a peer public key; normalized on the two abstract key
values so that both protocol sides compute identical bytes. -/
def dh (kp : RatchetKeyPair) (k : RemoteRatchetKey) : SymBytes :=
  SymBytes.dhOut (min kp.pid k.v) (max kp.pid k.v)

/-- Modelled from the spec: the initiator's 3DH shared secret
(shared_secret.rs is not under the given sources). -/
structure Shared3DHSecret where
  v : Nat
  deriving DecidableEq

/-- Modelled from the spec: the responder's 3DH shared secret; for the
same handshake material it carries the same abstract value as the
initiator's (spec 8: both derivations yield identical bytes). -/
structure RemoteShared3DHSecret where
  v : Nat
  deriving DecidableEq

/-- Modelled from the spec: initial expansion of the shared secret into
a root key and a chain key (spec 4.2, bootstrap case). -/
def Shared3DHSecret.expand (s : Shared3DHSecret) : SymBytes × SymBytes :=
  (SymBytes.expandRoot (SymBytes.secret s.v), SymBytes.expandChain (SymBytes.secret s.v))

/-- Modelled from the spec: the responder-side expansion computes the
same bytes as the initiator-side one (spec 8, first testable property). -/
def RemoteShared3DHSecret.expand (s : RemoteShared3DHSecret) : SymBytes × SymBytes :=
  (SymBytes.expandRoot (SymBytes.secret s.v), SymBytes.expandChain (SymBytes.secret s.v))

/-- Modelled from the spec: a sending chain key with its message index
(chain_key.rs is not under the given sources; spec 4.3). -/
structure ChainKey where
  key : SymBytes
  index : Nat
  deriving DecidableEq

/-- Modelled from the spec: a receiving chain key with its message index
(chain_key.rs is not under the given sources; spec 4.3). -/
structure RemoteChainKey where
  key : SymBytes
  index : Nat
  deriving DecidableEq

/-- Advance a chain key by a number of ratchet-forward steps (spec 4.3). -/
def chainAdvanceBy (c : SymBytes) : Nat → SymBytes
  | 0 => c
  | n + 1 => SymBytes.chainNext (chainAdvanceBy c n)

/-- Modelled from the spec: an AEAD ciphertext, recording the key it was
produced under and the encrypted body (message_key.rs is not under the
given sources; spec 4.4). -/
structure Ciphertext where
  key : SymBytes
  body : SymBytes
  deriving DecidableEq

/-- Modelled from the spec: a MAC over the ciphertext plus the message
metadata (ratchet public key and chain index) under a MAC key
(spec 4.4). -/
structure MacTag where
  key : SymBytes
  rk : Nat
  idx : Nat
  ct : Ciphertext
  deriving DecidableEq

/-- Modelled from the spec: the decoded form of a normal wire message:
ratchet public key, chain index, ciphertext and MAC (spec 6). -/
structure DecodedMessage where
  ratchet_key : RemoteRatchetKey
  index : Nat
  ciphertext : Ciphertext
  mac : MacTag
  deriving DecidableEq

/-- Modelled from the spec: the byte vectors handled by the codec
(messages.rs is not under the given sources): the encoding of a normal
message, the encoding of a prekey message (three handshake keys around
an inner message), or undecodable bytes. -/
inductive ByteVec : Type where
  | normalMsg (m : DecodedMessage)
  | preKeyMsg (one_time ephemeral identity : Nat) (inner : ByteVec)
  | garbage (n : Nat)
  deriving DecidableEq

/-- Modelled from the spec: the outer text encoding of message bytes
(utilities.rs encode/decode, a pass-through base64 layer): either the
faithful encoding of some bytes or an undecodable string. -/
inductive EncodedString : Type where
  | enc (b : ByteVec)
  | badEnc (n : Nat)
  deriving DecidableEq

/-- Outer encoding (utilities.rs encode): total, injective. -/
def encode (b : ByteVec) : EncodedString :=
  EncodedString.enc b

/-- Outer decoding (utilities.rs decode): fails on undecodable strings. -/
def decode : EncodedString → Option ByteVec
  | EncodedString.enc b => some b
  | EncodedString.badEnc _ => none

/-- Modelled from the spec: decoding of an inner normal message
(messages.rs OlmMessage::decode); fails unless the bytes are the
encoding of a normal message. -/
def InnerMessage.decode : ByteVec → Option DecodedMessage
  | ByteVec.normalMsg m => some m
  | _ => none

/-- Modelled from the spec: assembling a prekey message from the three
handshake public keys and the inner message bytes
(messages.rs PreKeyMessage::from_parts). -/
def InnerPreKeyMessage.from_parts (one_time ephemeral identity : Curve25591PublicKey)
    (inner : ByteVec) : ByteVec :=
  ByteVec.preKeyMsg one_time.v ephemeral.v identity.v inner

/-- Modelled from the spec: decoding of a prekey message into the three
handshake keys and the inner message bytes
(messages.rs PreKeyMessage::decode). -/
def InnerPreKeyMessage.decode : ByteVec → Option (Nat × Nat × Nat × ByteVec)
  | ByteVec.preKeyMsg a b c inner => some (a, b, c, inner)
  | _ => none

/-- Serialization of a decoded message back to bytes
(messages.rs OlmMessage::into_vec). -/
def DecodedMessage.into_vec (m : DecodedMessage) : ByteVec :=
  ByteVec.normalMsg m

/-- The outer wire envelope, Normal variant (crate::messages::Message). -/
structure Message where
  inner : EncodedString
  deriving DecidableEq

/-- The outer wire envelope, PreKey variant (crate::messages::PreKeyMessage). -/
structure PreKeyMessage where
  inner : EncodedString
  deriving DecidableEq

/-- The outer wire envelope (crate::messages::OlmMessage). -/
inductive OlmMessage : Type where
  | Normal (m : Message)
  | PreKey (m : PreKeyMessage)
  deriving DecidableEq

/-- True exactly on the PreKey variant. -/
def OlmMessage.isPreKey : OlmMessage → Bool
  | OlmMessage.PreKey _ => true
  | OlmMessage.Normal _ => false

/-- Modelled from the spec: the active sending ratchet state: current
root key, own ratchet key pair and sending chain key (spec 4.5; the
root key is carried because the next DH-ratchet step consumes it,
double_ratchet.rs is not under the given sources). -/
structure ActiveDoubleRatchet where
  root_key : SymBytes
  ratchet_key : RatchetKeyPair
  chain : ChainKey
  deriving DecidableEq

/-- Modelled from the spec: the inactive sending ratchet state: a root
key plus the peer's ratchet public key, no own key pair yet
(spec 4.5). -/
structure InactiveDoubleRatchet where
  root_key : SymBytes
  ratchet_key : RemoteRatchetKey
  deriving DecidableEq

/-- Modelled from the spec: activation of an inactive sending ratchet:
generate a fresh own key pair (supplied by the injected key-generation
collaborator), perform the DH with the stored peer key and advance the
root-key ratchet (spec 4.5, Inactive to Active transition). -/
def InactiveDoubleRatchet.activate (r : InactiveDoubleRatchet)
    (fresh : RatchetKeyPair) : ActiveDoubleRatchet :=
  let dhv := dh fresh r.ratchet_key
  ⟨SymBytes.advRoot r.root_key dhv, fresh,
    ⟨SymBytes.advChain r.root_key dhv, 0⟩⟩

/-- Modelled from the spec: sending-side encryption of one message:
derive the message seed at the current chain position, encrypt the
plaintext under the expanded AEAD key, MAC the ciphertext together with
the ratchet public key and the chain index, and advance the sending
chain (spec 4.3, 4.4, 4.5). -/
def ActiveDoubleRatchet.encrypt (a : ActiveDoubleRatchet) (plaintext : SymBytes) :
    DecodedMessage × ActiveDoubleRatchet :=
  let seed := SymBytes.msgSeed a.chain.key
  let ct : Ciphertext := ⟨SymBytes.aeadKey seed, plaintext⟩
  (⟨⟨a.ratchet_key.pid⟩, a.chain.index, ct,
      ⟨SymBytes.macKey seed, a.ratchet_key.pid, a.chain.index, ct⟩⟩,
    ⟨a.root_key, a.ratchet_key, ⟨SymBytes.chainNext a.chain.key, a.chain.index + 1⟩⟩)

/-- Modelled from the spec: the receiving-side ratchet: the peer's
current ratchet public key plus a receiving chain key (spec 4.5,
double_ratchet.rs is not under the given sources). -/
structure RemoteDoubleRatchet where
  ratchet_key : RemoteRatchetKey
  chain : RemoteChainKey
  deriving DecidableEq

/-- Whether an announced ratchet key matches the stored one
(double_ratchet.rs RemoteDoubleRatchet::belongs_to). -/
def RemoteDoubleRatchet.belongs_to (r : RemoteDoubleRatchet)
    (k : RemoteRatchetKey) : Bool :=
  decide (r.ratchet_key = k)

/-- Modelled from the spec: receiving-side decryption on the matching
chain: ratchet the chain forward to the message's declared index,
derive the message key there, verify the MAC over ciphertext plus
metadata and fail closed on mismatch, then decrypt (spec 4.3, 4.4,
4.5).  A declared index behind the current chain index fails: the
skipped-message-key cache the spec requires is the orchestrator's
unimplemented TODO (src/src/session/mod.rs line 162), so no past key
can be recovered.  Failure stands for the Rust panic, since the
function's Rust return type carries no error. -/
def RemoteDoubleRatchet.decrypt (r : RemoteDoubleRatchet) (message : DecodedMessage)
    (ciphertext : Ciphertext) (mac : MacTag) : Option (SymBytes × RemoteDoubleRatchet) :=
  if message.index < r.chain.index then
    none
  else
    let ckey := chainAdvanceBy r.chain.key (message.index - r.chain.index)
    let seed := SymBytes.msgSeed ckey
    if mac = ⟨SymBytes.macKey seed, message.ratchet_key.v, message.index, ciphertext⟩ then
      if ciphertext.key = SymBytes.aeadKey seed then
        some (ciphertext.body,
          ⟨r.ratchet_key, ⟨SymBytes.chainNext ckey, message.index + 1⟩⟩)
      else
        none
    else
      none

/-- Construction of a receiving ratchet from a peer ratchet key and a
chain key (double_ratchet.rs RemoteDoubleRatchet::new). -/
def RemoteDoubleRatchet.new (k : RemoteRatchetKey) (chain : SymBytes) :
    RemoteDoubleRatchet :=
  ⟨k, ⟨chain, 0⟩⟩

/-- Modelled from the spec: a DH-ratchet step from an active sending
ratchet on observing a new peer ratchet key: one shared root-key
advance seeds both the new inactive sending side and the new receiving
side (spec 4.5, DH-ratchet trigger). -/
def ActiveDoubleRatchet.advance (a : ActiveDoubleRatchet) (k : RemoteRatchetKey) :
    InactiveDoubleRatchet × RemoteDoubleRatchet :=
  let dhv := dh a.ratchet_key k
  (⟨SymBytes.advRoot a.root_key dhv, k⟩,
    RemoteDoubleRatchet.new k (SymBytes.advChain a.root_key dhv))

/-- The sending-side ratchet state machine (double_ratchet.rs
LocalDoubleRatchet). -/
inductive LocalDoubleRatchet : Type where
  | Inactive (r : InactiveDoubleRatchet)
  | Active (r : ActiveDoubleRatchet)
  deriving DecidableEq

/-- Modelled from the spec: the initiator's active sending ratchet,
seeded from the shared secret with a fresh own ratchet key pair
(spec 4.5, 4.6). -/
def LocalDoubleRatchet.active (s : Shared3DHSecret) (fresh : RatchetKeyPair) :
    LocalDoubleRatchet :=
  LocalDoubleRatchet.Active ⟨s.expand.1, fresh, ⟨s.expand.2, 0⟩⟩

/-- The responder's inactive sending ratchet (double_ratchet.rs
LocalDoubleRatchet::inactive). -/
def LocalDoubleRatchet.inactive (root : SymBytes) (k : RemoteRatchetKey) :
    LocalDoubleRatchet :=
  LocalDoubleRatchet.Inactive ⟨root, k⟩

/-- Modelled from the spec: the enum-level DH-ratchet step.  An
inactive sending side holds no own key pair, so the spec defines no DH
step for it; that case is the failure outcome (spec 4.5 describes the
trigger only with an own ratchet key pair). -/
def LocalDoubleRatchet.advance : LocalDoubleRatchet → RemoteRatchetKey →
    Option (InactiveDoubleRatchet × RemoteDoubleRatchet)
  | LocalDoubleRatchet.Active a, k => some (a.advance k)
  | LocalDoubleRatchet.Inactive _, _ => none

/-- The three handshake public keys the initiator must keep announcing
until the peer proves receipt (mod.rs SessionKeys). -/
structure SessionKeys where
  identity_key : Curve25591PublicKey
  ephemeral_key : Curve25591PublicKey
  one_time_key : Curve25591PublicKey
  deriving DecidableEq

/-- Constructor of SessionKeys (mod.rs SessionKeys::new). -/
def SessionKeys.new (identity_key ephemeral_key one_time_key : Curve25591PublicKey) :
    SessionKeys :=
  ⟨identity_key, ephemeral_key, one_time_key⟩

/-- The session state (mod.rs Session): optional handshake keys, one
sending ratchet, at most one receiving ratchet. -/
structure Session where
  session_keys : Option SessionKeys
  sending_ratchet : LocalDoubleRatchet
  receiving_ratchet : Option RemoteDoubleRatchet
  deriving DecidableEq

/-- Initiator constructor (mod.rs Session::new): an active local
ratchet from the shared secret, keeps the session keys, no receiving
ratchet.  The fresh ratchet key pair is the injected randomness the
active ratchet generates internally in Rust. -/
def Session.new (shared_secret : Shared3DHSecret) (session_keys : SessionKeys)
    (fresh : RatchetKeyPair) : Session :=
  let local_ratchet := LocalDoubleRatchet.active shared_secret fresh
  ⟨some session_keys, local_ratchet, none⟩

/-- Responder constructor (mod.rs Session::new_remote): expand the
remote shared secret, make an inactive local ratchet and an immediate
remote ratchet from the peer's announced ratchet key, no session
keys. -/
def Session.new_remote (shared_secret : RemoteShared3DHSecret)
    (remote_ratchet_key : RemoteRatchetKey) : Session :=
  let root_key := shared_secret.expand.1
  let remote_chain_key := shared_secret.expand.2
  let local_ratchet := LocalDoubleRatchet.inactive root_key remote_ratchet_key
  let remote_ratchet := RemoteDoubleRatchet.new remote_ratchet_key remote_chain_key
  ⟨none, local_ratchet, some remote_ratchet⟩

/-- Session matching predicate (mod.rs
Session::matches_inbound_session_from).  The source is an unimplemented
stub that ignores both arguments and returns true. -/
def Session.matches_inbound_session_from (_s : Session)
    (_their_identity_key : String) (_message : PreKeyMessage) : Bool :=
  true

/-- The ratchet-driving half of encrypt (mod.rs Session::encrypt, first
match): activate an inactive sending ratchet with a fresh key pair and
store it back as Active, or encrypt directly on an active one. -/
def Session.encryptInner (s : Session) (plaintext : Nat) (fresh : RatchetKeyPair) :
    DecodedMessage × LocalDoubleRatchet :=
  match s.sending_ratchet with
  | LocalDoubleRatchet.Inactive ratchet =>
    let r := ratchet.activate fresh
    let p := r.encrypt (SymBytes.pt plaintext)
    (p.1, LocalDoubleRatchet.Active p.2)
  | LocalDoubleRatchet.Active ratchet =>
    let p := ratchet.encrypt (SymBytes.pt plaintext)
    (p.1, LocalDoubleRatchet.Active p.2)

/-- Encryption (mod.rs Session::encrypt): drive the sending ratchet,
then wrap the inner message as a PreKey envelope embedding the one-time,
ephemeral and identity keys when session keys are present, else as a
Normal envelope. -/
def Session.encrypt (s : Session) (plaintext : Nat) (fresh : RatchetKeyPair) :
    OlmMessage × Session :=
  let message := (s.encryptInner plaintext fresh).1
  let sending_ratchet := (s.encryptInner plaintext fresh).2
  match s.session_keys with
  | some session_keys =>
    let bytes := InnerPreKeyMessage.from_parts session_keys.one_time_key
      session_keys.ephemeral_key session_keys.identity_key message.into_vec
    (OlmMessage.PreKey ⟨encode bytes⟩,
      ⟨s.session_keys, sending_ratchet, s.receiving_ratchet⟩)
  | none =>
    (OlmMessage.Normal ⟨encode message.into_vec⟩,
      ⟨s.session_keys, sending_ratchet, s.receiving_ratchet⟩)

/-- The receiving-ratchet ownership test of decrypt_normal (mod.rs line
164): Rust's receiving_ratchet.as_ref().map_or(false, belongs_to). -/
def Session.belongsCheck (s : Session) (k : RemoteRatchetKey) : Bool :=
  match s.receiving_ratchet with
  | some r => r.belongs_to k
  | none => false

/-- Decryption of a decoded normal message (mod.rs
Session::decrypt_normal).  When the announced ratchet key is not the
receiving ratchet's, a DH-ratchet trigger advances the sending ratchet,
decrypts with the new remote ratchet, and only then commits the new
inactive sending ratchet, the new receiving ratchet and the disposal of
the session keys; otherwise the existing receiving ratchet decrypts in
place.  none stands for a Rust panic: the unwrap on an undecodable
message, the todo arm, a failed ratchet step or a failed
authentication. -/
def Session.decrypt_normal (s : Session) (message : ByteVec) :
    Option (SymBytes × Session) :=
  match InnerMessage.decode message with
  | none => none
  | some decoded =>
    if s.belongsCheck decoded.ratchet_key = false then
      match s.sending_ratchet.advance decoded.ratchet_key with
      | none => none
      | some (sending_ratchet, remote_ratchet) =>
        match remote_ratchet.decrypt decoded decoded.ciphertext decoded.mac with
        | none => none
        | some (plaintext, remote_ratchet) =>
          some (plaintext,
            ⟨none, LocalDoubleRatchet.Inactive sending_ratchet, some remote_ratchet⟩)
    else
      match s.receiving_ratchet with
      | some remote_ratchet =>
        match remote_ratchet.decrypt decoded decoded.ciphertext decoded.mac with
        | none => none
        | some (plaintext, remote_ratchet) =>
          some (plaintext, ⟨s.session_keys, s.sending_ratchet, some remote_ratchet⟩)
      | none => none

/-- Decryption of decoded prekey message bytes (mod.rs
Session::decrypt_prekey): unwrap the inner message and fall through to
decrypt_normal; none stands for the panic of the unwrap on undecodable
bytes. -/
def Session.decrypt_prekey (s : Session) (message : ByteVec) :
    Option (SymBytes × Session) :=
  match InnerPreKeyMessage.decode message with
  | none => none
  | some (_, _, _, inner) => s.decrypt_normal inner

/-- Lossy UTF-8 conversion of decrypted bytes (Rust
String::from_utf8_lossy): exact on the bytes of a UTF-8 string. -/
def from_utf8_lossy : SymBytes → Nat
  | SymBytes.pt n => n
  | _ => 0

/-- Decryption (mod.rs Session::decrypt): decode the outer envelope
(the unwrap panics on undecodable strings, modelled as none), dispatch
on the variant, and convert the decrypted bytes to a string. -/
def Session.decrypt (s : Session) (message : OlmMessage) : Option (Nat × Session) :=
  match message with
  | OlmMessage.Normal m =>
    match decode m.inner with
    | none => none
    | some bytes =>
      match s.decrypt_normal bytes with
      | none => none
      | some (decrypted, s2) => some (from_utf8_lossy decrypted, s2)
  | OlmMessage.PreKey m =>
    match decode m.inner with
    | none => none
    | some bytes =>
      match s.decrypt_prekey bytes with
      | none => none
      | some (decrypted, s2) => some (from_utf8_lossy decrypted, s2)

/-- Encrypt a list of plaintexts in order on one session, returning the
produced envelopes and the final session state. -/
def encryptAll (s : Session) (fresh : RatchetKeyPair) :
    List Nat → List OlmMessage × Session
  | [] => ([], s)
  | p :: ps =>
    let r := s.encrypt p fresh
    let rest := encryptAll r.2 fresh ps
    (r.1 :: rest.1, rest.2)

/-- Decrypt a list of envelopes in order on one session, returning the
plaintexts and the final session state; fails if any single decrypt
fails. -/
def decryptAll (s : Session) : List OlmMessage → Option (List Nat × Session)
  | [] => some ([], s)
  | m :: ms =>
    match s.decrypt m with
    | none => none
    | some (p, s2) =>
      match decryptAll s2 ms with
      | none => none
      | some (ps, s3) => some (p :: ps, s3)

/-- The reachable session states, indexed by the constructing role
(true for the initiator constructor) and by whether a successful
decrypt call has occurred on the session.  A failed decrypt is a panic
in the source and has no successor state. -/
inductive ReachedR : Session → Bool → Bool → Prop where
  | init (secret : Shared3DHSecret) (sk : SessionKeys) (fresh : RatchetKeyPair) :
      ReachedR (Session.new secret sk fresh) true false
  | initRemote (secret : RemoteShared3DHSecret) (rrk : RemoteRatchetKey) :
      ReachedR (Session.new_remote secret rrk) false false
  | enc {s : Session} {i d : Bool} (p : Nat) (fresh : RatchetKeyPair) :
      ReachedR s i d → ReachedR (s.encrypt p fresh).2 i d
  | dec {s : Session} {i d : Bool} (m : OlmMessage) (p : Nat) (s2 : Session) :
      ReachedR s i d → s.decrypt m = some (p, s2) → ReachedR s2 i true

/-! Theorems settling the claims. -/

/-- C9: the initiator constructor yields an Active sending ratchet
seeded from the shared-secret expansion, no receiving ratchet, and the
session keys present; the responder constructor yields an Inactive
sending ratchet seeded with the expanded root key and the peer's
announced ratchet key, an immediately constructed receiving ratchet
holding that same key, and no session keys. -/
theorem session_constructors_spec (secret : Shared3DHSecret) (sk : SessionKeys)
    (fresh : RatchetKeyPair) (rsecret : RemoteShared3DHSecret) (rrk : RemoteRatchetKey) :
    (Session.new secret sk fresh).session_keys = some sk ∧
    (Session.new secret sk fresh).sending_ratchet =
      LocalDoubleRatchet.Active ⟨secret.expand.1, fresh, ⟨secret.expand.2, 0⟩⟩ ∧
    (Session.new secret sk fresh).receiving_ratchet = none ∧
    (Session.new_remote rsecret rrk).session_keys = none ∧
    (Session.new_remote rsecret rrk).sending_ratchet =
      LocalDoubleRatchet.Inactive ⟨rsecret.expand.1, rrk⟩ ∧
    (Session.new_remote rsecret rrk).receiving_ratchet =
      some ⟨rrk, ⟨rsecret.expand.2, 0⟩⟩ :=
  ⟨rfl, rfl, rfl, rfl, rfl, rfl⟩

/-- C10: after any encrypt call the sending ratchet is in the Active
state: an Inactive ratchet is activated with the fresh key pair before
producing the message and stored back Active, and an Active ratchet
stays Active having advanced its chain. -/
theorem encrypt_leaves_sending_active (s : Session) (p : Nat) (fresh : RatchetKeyPair) :
    ∃ a : ActiveDoubleRatchet,
      ((s.encrypt p fresh).2).sending_ratchet = LocalDoubleRatchet.Active a ∧
      (∀ r, s.sending_ratchet = LocalDoubleRatchet.Inactive r →
        a = ((r.activate fresh).encrypt (SymBytes.pt p)).2) ∧
      (∀ r, s.sending_ratchet = LocalDoubleRatchet.Active r →
        a = (r.encrypt (SymBytes.pt p)).2) := by
  obtain ⟨sk, sr, rr⟩ := s
  cases sr with
  | Inactive r =>
    refine ⟨((r.activate fresh).encrypt (SymBytes.pt p)).2, ?_, ?_, ?_⟩
    · cases sk <;> rfl
    · intro q hq; cases hq; rfl
    · intro q hq; cases hq
  | Active r =>
    refine ⟨(r.encrypt (SymBytes.pt p)).2, ?_, ?_, ?_⟩
    · cases sk <;> rfl
    · intro q hq; cases hq
    · intro q hq; cases hq; rfl

/-- C10 witness: the statement instantiated at a concrete fresh
initiator session. -/
theorem encrypt_leaves_sending_active_witness :
    ∃ a : ActiveDoubleRatchet,
      (((Session.new ⟨0⟩ (SessionKeys.new ⟨1⟩ ⟨2⟩ ⟨3⟩) ⟨4⟩).encrypt 7 ⟨9⟩).2).sending_ratchet =
        LocalDoubleRatchet.Active a ∧
      (∀ r, (Session.new ⟨0⟩ (SessionKeys.new ⟨1⟩ ⟨2⟩ ⟨3⟩) ⟨4⟩).sending_ratchet =
          LocalDoubleRatchet.Inactive r →
        a = ((r.activate ⟨9⟩).encrypt (SymBytes.pt 7)).2) ∧
      (∀ r, (Session.new ⟨0⟩ (SessionKeys.new ⟨1⟩ ⟨2⟩ ⟨3⟩) ⟨4⟩).sending_ratchet =
          LocalDoubleRatchet.Active r →
        a = (r.encrypt (SymBytes.pt 7)).2) :=
  encrypt_leaves_sending_active (Session.new ⟨0⟩ (SessionKeys.new ⟨1⟩ ⟨2⟩ ⟨3⟩) ⟨4⟩) 7 ⟨9⟩

/-- C3: encrypt wraps the inner message as a PreKey envelope embedding
the one-time, ephemeral and identity keys exactly when session keys are
present, and as a Normal envelope exactly when they are absent. -/
theorem encrypt_framing_follows_session_keys (s : Session) (p : Nat)
    (fresh : RatchetKeyPair) :
    (∀ sk, s.session_keys = some sk →
      (s.encrypt p fresh).1 = OlmMessage.PreKey ⟨encode (InnerPreKeyMessage.from_parts
        sk.one_time_key sk.ephemeral_key sk.identity_key
        ((s.encryptInner p fresh).1).into_vec)⟩) ∧
    (s.session_keys = none →
      (s.encrypt p fresh).1 =
        OlmMessage.Normal ⟨encode ((s.encryptInner p fresh).1).into_vec⟩) := by
  obtain ⟨sk, sr, rr⟩ := s
  constructor
  · intro k hk
    cases hk
    rfl
  · intro hk
    cases hk
    rfl

/-- C3 witness: the statement instantiated at a fresh initiator session
whose session keys are present. -/
theorem encrypt_framing_witness :
    (Session.new ⟨0⟩ (SessionKeys.new ⟨1⟩ ⟨2⟩ ⟨3⟩) ⟨4⟩).session_keys =
      some (SessionKeys.new ⟨1⟩ ⟨2⟩ ⟨3⟩) ∧
    ((Session.new ⟨0⟩ (SessionKeys.new ⟨1⟩ ⟨2⟩ ⟨3⟩) ⟨4⟩).encrypt 7 ⟨9⟩).1 =
      OlmMessage.PreKey ⟨encode (InnerPreKeyMessage.from_parts ⟨3⟩ ⟨2⟩ ⟨1⟩
        (((Session.new ⟨0⟩ (SessionKeys.new ⟨1⟩ ⟨2⟩ ⟨3⟩) ⟨4⟩).encryptInner 7 ⟨9⟩).1).into_vec)⟩ :=
  ⟨rfl, (encrypt_framing_follows_session_keys
      (Session.new ⟨0⟩ (SessionKeys.new ⟨1⟩ ⟨2⟩ ⟨3⟩) ⟨4⟩) 7 ⟨9⟩).1
    (SessionKeys.new ⟨1⟩ ⟨2⟩ ⟨3⟩) rfl⟩

/-- C8 (code bug): matches_inbound_session_from is an unimplemented
stub.  It indeed mutates nothing (it does not touch the session), but
it returns true on a session established with one-time, ephemeral and
identity keys 3, 2, 1 for a prekey message embedding the unrelated keys
99, 98, 97 — the claimed comparison of the embedded key references
never happens. -/
theorem matches_inbound_stub_ignores_keys :
    (Session.new ⟨0⟩ (SessionKeys.new ⟨1⟩ ⟨2⟩ ⟨3⟩) ⟨4⟩).matches_inbound_session_from
      "peer_identity"
      ⟨encode (InnerPreKeyMessage.from_parts ⟨99⟩ ⟨98⟩ ⟨97⟩ (ByteVec.garbage 0))⟩ = true ∧
    (∀ (s : Session) (ik : String) (m : PreKeyMessage),
      s.matches_inbound_session_from ik m = true) :=
  ⟨rfl, fun _ _ _ => rfl⟩

/-- C2 (code bug): decrypt of a malformed Normal message does not
return any typed failure: the source calls decode(...).unwrap()
(src/src/session/mod.rs line 139) and panics, modelled as the none
outcome, so no retry with a different message on the same session state
is possible. -/
theorem decrypt_malformed_panics :
    (Session.new_remote ⟨0⟩ ⟨1⟩).decrypt
      (OlmMessage.Normal ⟨EncodedString.badEnc 0⟩) = none :=
  rfl

/-- C6 (code bug): decrypt of undecodable prekey message bytes diverges
(unwrap panic, modelled as none) instead of yielding a typed
DecodeError value; no error type exists in the source at all. -/
theorem decrypt_undecodable_diverges :
    (Session.new ⟨0⟩ (SessionKeys.new ⟨1⟩ ⟨2⟩ ⟨3⟩) ⟨4⟩).decrypt
      (OlmMessage.PreKey ⟨EncodedString.badEnc 5⟩) = none :=
  rfl

/-- C5 (code bug): the out-of-order scenario.  With M1, M2, M3
encrypted in that order on one chain, delivering M2 first succeeds (the
receiving chain is ratcheted forward past index 0), but delivering M1
afterwards fails: its declared index is behind the receiving chain and
the skipped-message-key cache the spec requires is the unimplemented
TODO at src/src/session/mod.rs line 162, so the never-consumed key of
M1 is unrecoverable and the call panics (modelled as none).  M3 still
decrypts after M2. -/
theorem out_of_order_m1_lost :
    Option.map Prod.fst
      ((Session.new_remote ⟨0⟩ ⟨4⟩).decrypt
        (((Session.new ⟨0⟩ (SessionKeys.new ⟨1⟩ ⟨2⟩ ⟨3⟩) ⟨4⟩).encrypt 11
          ⟨9⟩).2.encrypt 22 ⟨9⟩).1) = some 22 ∧
    Option.bind
      ((Session.new_remote ⟨0⟩ ⟨4⟩).decrypt
        (((Session.new ⟨0⟩ (SessionKeys.new ⟨1⟩ ⟨2⟩ ⟨3⟩) ⟨4⟩).encrypt 11
          ⟨9⟩).2.encrypt 22 ⟨9⟩).1)
      (fun r => r.2.decrypt
        ((Session.new ⟨0⟩ (SessionKeys.new ⟨1⟩ ⟨2⟩ ⟨3⟩) ⟨4⟩).encrypt 11 ⟨9⟩).1) = none ∧
    Option.map Prod.fst
      (Option.bind
        ((Session.new_remote ⟨0⟩ ⟨4⟩).decrypt
          (((Session.new ⟨0⟩ (SessionKeys.new ⟨1⟩ ⟨2⟩ ⟨3⟩) ⟨4⟩).encrypt 11
            ⟨9⟩).2.encrypt 22 ⟨9⟩).1)
        (fun r => r.2.decrypt
          ((((Session.new ⟨0⟩ (SessionKeys.new ⟨1⟩ ⟨2⟩ ⟨3⟩) ⟨4⟩).encrypt 11
            ⟨9⟩).2.encrypt 22 ⟨9⟩).2.encrypt 33 ⟨9⟩).1)) = some 33 := by
  refine ⟨by decide, by decide, by decide⟩

/-- Both sides of an in-order exchange keep synchronized chain keys:
if the sender is Active at chain position (ck, k) under ratchet key
pair fresh and the receiver's ratchet holds the matching public key and
the same chain position, then the whole batch of plaintexts round-trips
and the plaintext list is returned intact.  The sender's session keys,
the receiver's session keys and the receiver's sending ratchet are
arbitrary. -/
theorem roundtrip_aux (ps : List Nat) : ∀ (skA : SessionKeys)
    (skB : Option SessionKeys) (fresh fresh2 : RatchetKeyPair) (root : SymBytes)
    (sendB : LocalDoubleRatchet) (ck : SymBytes) (k : Nat),
    Option.map Prod.fst
      (decryptAll ⟨skB, sendB, some ⟨⟨fresh.pid⟩, ⟨ck, k⟩⟩⟩
        (encryptAll ⟨some skA, LocalDoubleRatchet.Active ⟨root, fresh, ⟨ck, k⟩⟩, none⟩
          fresh2 ps).1) = some ps := by
  induction ps with
  | nil =>
    intro skA skB fresh fresh2 root sendB ck k
    simp [encryptAll, decryptAll]
  | cons p ps ih =>
    intro skA skB fresh fresh2 root sendB ck k
    have step := ih skA skB fresh fresh2 root sendB (SymBytes.chainNext ck) (k + 1)
    simp [encryptAll, decryptAll, Session.encrypt, Session.encryptInner,
      ActiveDoubleRatchet.encrypt, Session.decrypt, Session.decrypt_prekey,
      Session.decrypt_normal, InnerMessage.decode, InnerPreKeyMessage.decode,
      InnerPreKeyMessage.from_parts, DecodedMessage.into_vec, decode, encode,
      Session.belongsCheck, RemoteDoubleRatchet.belongs_to, RemoteDoubleRatchet.decrypt,
      chainAdvanceBy, from_utf8_lossy] at step ⊢
    obtain ⟨x, hx⟩ := step
    exact ⟨x, by rw [hx]⟩

/-- C1: round-trip.  When session A is constructed as initiator and
session B as responder from the same handshake material (the same 3DH
secret value, B seeded with A's announced ratchet public key), B
decrypts every message of any in-order sequence of up to 50 messages
from A back to the original plaintexts — the first message included. -/
theorem roundtrip_50 (v : Nat) (sk : SessionKeys) (fresh fresh2 : RatchetKeyPair)
    (ps : List Nat) (_hlen : ps.length ≤ 50) :
    Option.map Prod.fst
      (decryptAll (Session.new_remote ⟨v⟩ ⟨fresh.pid⟩)
        (encryptAll (Session.new ⟨v⟩ sk fresh) fresh2 ps).1) = some ps := by
  have h := roundtrip_aux ps sk none fresh fresh2
    (SymBytes.expandRoot (SymBytes.secret v))
    (LocalDoubleRatchet.inactive (SymBytes.expandRoot (SymBytes.secret v)) ⟨fresh.pid⟩)
    (SymBytes.expandChain (SymBytes.secret v)) 0
  simpa [Session.new, Session.new_remote, LocalDoubleRatchet.active,
    LocalDoubleRatchet.inactive, RemoteDoubleRatchet.new, Shared3DHSecret.expand,
    RemoteShared3DHSecret.expand] using h

/-- C1 witness: a concrete three-message exchange, within the 50
message bound, instantiating the round-trip theorem. -/
theorem roundtrip_50_witness :
    ([3, 1, 4] : List Nat).length ≤ 50 ∧
    Option.map Prod.fst
      (decryptAll (Session.new_remote ⟨0⟩ ⟨4⟩)
        (encryptAll (Session.new ⟨0⟩ (SessionKeys.new ⟨1⟩ ⟨2⟩ ⟨3⟩) ⟨4⟩) ⟨9⟩
          [3, 1, 4]).1) = some [3, 1, 4] :=
  ⟨by decide, roundtrip_50 0 (SessionKeys.new ⟨1⟩ ⟨2⟩ ⟨3⟩) ⟨4⟩ ⟨9⟩ [3, 1, 4] (by decide)⟩

/-- C4: when a successfully decrypted inbound normal message announces
a ratchet key the current receiving ratchet does not own (or no
receiving ratchet exists), the call is a DH-ratchet trigger: the
sending ratchet must have been Active, and afterwards it is Inactive
seeded with the advanced root key and the newly observed peer key,
while the receiving ratchet is newly constructed from the same
DH-ratchet step (same root key, same DH output) and has consumed the
message, its chain standing one past the message's index.  The session
keys are disposed of. -/
theorem decrypt_trigger_resets_ratchets (s : Session) (dm : DecodedMessage)
    (p : SymBytes) (s2 : Session)
    (hmis : s.belongsCheck dm.ratchet_key = false)
    (h : s.decrypt_normal (ByteVec.normalMsg dm) = some (p, s2)) :
    ∃ a : ActiveDoubleRatchet, s.sending_ratchet = LocalDoubleRatchet.Active a ∧
      s2.sending_ratchet = LocalDoubleRatchet.Inactive
        ⟨SymBytes.advRoot a.root_key (dh a.ratchet_key dm.ratchet_key), dm.ratchet_key⟩ ∧
      s2.receiving_ratchet = some ⟨dm.ratchet_key,
        ⟨SymBytes.chainNext (chainAdvanceBy
            (SymBytes.advChain a.root_key (dh a.ratchet_key dm.ratchet_key)) dm.index),
          dm.index + 1⟩⟩ ∧
      s2.session_keys = none := by
  unfold Session.decrypt_normal at h
  simp only [InnerMessage.decode, hmis, if_true, eq_self_iff_true, if_pos] at h
  cases hs : s.sending_ratchet with
  | Inactive r =>
    rw [hs] at h
    simp [LocalDoubleRatchet.advance] at h
  | Active a =>
    rw [hs] at h
    simp only [LocalDoubleRatchet.advance, ActiveDoubleRatchet.advance,
      RemoteDoubleRatchet.new, RemoteDoubleRatchet.decrypt, Nat.not_lt_zero,
      if_false, Nat.sub_zero] at h
    refine ⟨a, rfl, ?_⟩
    split at h
    · simp at h
    · rename_i x pl rr heq
      split at heq
      · split at heq
        · injection heq with heq1
          injection heq1 with hpl hrr
          injection h with h1
          injection h1 with hp hs2
          subst hrr
          subst hs2
          exact ⟨rfl, rfl, rfl⟩
        · simp at heq
      · simp at heq

/-- C4 witness: a concrete initiator session and a concrete honestly
built message under the new peer ratchet key 7, instantiating the
trigger theorem; the resulting session state is written out in full. -/
theorem decrypt_trigger_witness :
    ∃ a : ActiveDoubleRatchet,
      (Session.new ⟨0⟩ (SessionKeys.new ⟨1⟩ ⟨2⟩ ⟨3⟩) ⟨4⟩).sending_ratchet =
        LocalDoubleRatchet.Active a ∧
      (⟨none,
        LocalDoubleRatchet.Inactive ⟨SymBytes.advRoot
          (SymBytes.expandRoot (SymBytes.secret 0)) (SymBytes.dhOut 4 7), ⟨7⟩⟩,
        some ⟨⟨7⟩, ⟨SymBytes.chainNext (SymBytes.advChain
          (SymBytes.expandRoot (SymBytes.secret 0)) (SymBytes.dhOut 4 7)), 1⟩⟩⟩ :
            Session).sending_ratchet = LocalDoubleRatchet.Inactive
        ⟨SymBytes.advRoot a.root_key (dh a.ratchet_key ⟨7⟩), ⟨7⟩⟩ ∧
      (⟨none,
        LocalDoubleRatchet.Inactive ⟨SymBytes.advRoot
          (SymBytes.expandRoot (SymBytes.secret 0)) (SymBytes.dhOut 4 7), ⟨7⟩⟩,
        some ⟨⟨7⟩, ⟨SymBytes.chainNext (SymBytes.advChain
          (SymBytes.expandRoot (SymBytes.secret 0)) (SymBytes.dhOut 4 7)), 1⟩⟩⟩ :
            Session).receiving_ratchet = some ⟨⟨7⟩,
        ⟨SymBytes.chainNext (chainAdvanceBy
            (SymBytes.advChain a.root_key (dh a.ratchet_key ⟨7⟩)) 0), 1⟩⟩ ∧
      (⟨none,
        LocalDoubleRatchet.Inactive ⟨SymBytes.advRoot
          (SymBytes.expandRoot (SymBytes.secret 0)) (SymBytes.dhOut 4 7), ⟨7⟩⟩,
        some ⟨⟨7⟩, ⟨SymBytes.chainNext (SymBytes.advChain
          (SymBytes.expandRoot (SymBytes.secret 0)) (SymBytes.dhOut 4 7)), 1⟩⟩⟩ :
            Session).session_keys = none := by
  exact decrypt_trigger_resets_ratchets
    (Session.new ⟨0⟩ (SessionKeys.new ⟨1⟩ ⟨2⟩ ⟨3⟩) ⟨4⟩)
    ⟨⟨7⟩, 0,
      ⟨SymBytes.aeadKey (SymBytes.msgSeed (SymBytes.advChain
        (SymBytes.expandRoot (SymBytes.secret 0)) (SymBytes.dhOut 4 7))), SymBytes.pt 5⟩,
      ⟨SymBytes.macKey (SymBytes.msgSeed (SymBytes.advChain
        (SymBytes.expandRoot (SymBytes.secret 0)) (SymBytes.dhOut 4 7))), 7, 0,
        ⟨SymBytes.aeadKey (SymBytes.msgSeed (SymBytes.advChain
          (SymBytes.expandRoot (SymBytes.secret 0)) (SymBytes.dhOut 4 7))),
          SymBytes.pt 5⟩⟩⟩
    (SymBytes.pt 5)
    ⟨none,
      LocalDoubleRatchet.Inactive ⟨SymBytes.advRoot
        (SymBytes.expandRoot (SymBytes.secret 0)) (SymBytes.dhOut 4 7), ⟨7⟩⟩,
      some ⟨⟨7⟩, ⟨SymBytes.chainNext (SymBytes.advChain
        (SymBytes.expandRoot (SymBytes.secret 0)) (SymBytes.dhOut 4 7)), 1⟩⟩⟩
    (by decide) (by decide)

/-- Encrypt never touches the session keys or the receiving ratchet:
both branches of the envelope match copy them through. -/
theorem encrypt_preserves_keys_and_receiving (s : Session) (p : Nat)
    (fresh : RatchetKeyPair) :
    ((s.encrypt p fresh).2).session_keys = s.session_keys ∧
    ((s.encrypt p fresh).2).receiving_ratchet = s.receiving_ratchet := by
  obtain ⟨sk, sr, rr⟩ := s
  cases sk <;> exact ⟨rfl, rfl⟩

/-- What a successful decrypt does to the session keys: a session with
no receiving ratchet must take the DH-trigger branch and therefore ends
with no session keys, and a session that already has no session keys
never regains them. -/
theorem decrypt_keys_after_success (s : Session) (m : OlmMessage) (p : Nat)
    (s2 : Session) (h : s.decrypt m = some (p, s2)) :
    (s.receiving_ratchet = none → s2.session_keys = none) ∧
    (s.session_keys = none → s2.session_keys = none) := by
  have normal : ∀ (b : ByteVec) (q : SymBytes) (t : Session),
      s.decrypt_normal b = some (q, t) →
      (s.receiving_ratchet = none → t.session_keys = none) ∧
      (s.session_keys = none → t.session_keys = none) := by
    intro b q t hb
    unfold Session.decrypt_normal at hb
    split at hb
    · cases hb
    · split at hb
      · split at hb
        · cases hb
        · split at hb
          · cases hb
          · rename_i heq
            injection hb with hb1
            injection hb1 with hq ht
            subst ht
            exact ⟨fun _ => rfl, fun _ => rfl⟩
      · split at hb
        · split at hb
          · cases hb
          · rename_i hbel hrr x pl r2 heq
            injection hb with hb1
            injection hb1 with hq ht
            subst ht
            refine ⟨fun hnone => ?_, fun hnone => hnone⟩
            rw [hnone] at hrr
            cases hrr
        · cases hb
  cases m with
  | Normal mm =>
    simp only [Session.decrypt] at h
    cases hd : decode mm.inner with
    | none => rw [hd] at h; cases h
    | some bytes =>
      rw [hd] at h
      replace h : (match s.decrypt_normal bytes with
        | none => none
        | some (d, t) => some (from_utf8_lossy d, t)) = some (p, s2) := h
      cases hn : s.decrypt_normal bytes with
      | none => rw [hn] at h; cases h
      | some r =>
        obtain ⟨q, t⟩ := r
        rw [hn] at h
        replace h : some (from_utf8_lossy q, t) = some (p, s2) := h
        injection h with h1
        injection h1 with hp hs2
        subst hs2
        exact normal bytes q t hn
  | PreKey mm =>
    simp only [Session.decrypt] at h
    cases hd : decode mm.inner with
    | none => rw [hd] at h; cases h
    | some bytes =>
      rw [hd] at h
      replace h : (match s.decrypt_prekey bytes with
        | none => none
        | some (d, t) => some (from_utf8_lossy d, t)) = some (p, s2) := h
      unfold Session.decrypt_prekey at h
      cases hpk : InnerPreKeyMessage.decode bytes with
      | none => rw [hpk] at h; cases h
      | some parts =>
        obtain ⟨k1, k2, k3, inner⟩ := parts
        rw [hpk] at h
        replace h : (match s.decrypt_normal inner with
          | none => none
          | some (d, t) => some (from_utf8_lossy d, t)) = some (p, s2) := h
        cases hn : s.decrypt_normal inner with
        | none => rw [hn] at h; cases h
        | some r =>
          obtain ⟨q, t⟩ := r
          rw [hn] at h
          replace h : some (from_utf8_lossy q, t) = some (p, s2) := h
          injection h with h1
          injection h1 with hp hs2
          subst hs2
          exact normal inner q t hn

/-- The reachable-state invariant behind C7: the session keys are
present exactly on initiator-constructed sessions with no successful
decrypt yet, and such sessions also still have no receiving ratchet
(which forces the first successful decrypt through the DH-trigger
branch that disposes of the keys). -/
theorem reached_inv {s : Session} {i d : Bool} (h : ReachedR s i d) :
    s.session_keys.isSome = (i && !d) ∧
    ((i && !d) = true → s.receiving_ratchet = none) := by
  induction h with
  | init secret sk fresh => exact ⟨rfl, fun _ => rfl⟩
  | initRemote secret rrk => exact ⟨rfl, fun hb => absurd hb (by decide)⟩
  | enc p fresh hr ih =>
    obtain ⟨h1, h2⟩ := ih
    obtain ⟨e1, e2⟩ := encrypt_preserves_keys_and_receiving _ p fresh
    exact ⟨by rw [e1, h1], fun hb => by rw [e2]; exact h2 hb⟩
  | dec m p s2 hr hdec ih =>
    rename_i s1 i1 d1
    obtain ⟨h1, h2⟩ := ih
    have hn : s2.session_keys = none := by
      cases hb : (i1 && !d1) with
      | true => exact (decrypt_keys_after_success _ _ _ _ hdec).1 (h2 hb)
      | false =>
        have hf := h1
        rw [hb] at hf
        have hsk : s1.session_keys = none := by
          cases hsk2 : s1.session_keys with
          | none => rfl
          | some k => rw [hsk2] at hf; simp at hf
        exact (decrypt_keys_after_success _ _ _ _ hdec).2 hsk
    constructor
    · rw [hn]; simp
    · intro hb; simp at hb

/-- C7 counterexample: the claim as stated fails at a freshly
constructed responder session: no successful decrypt has occurred on
it, yet its session keys are already absent (the responder constructor
never installs any). -/
theorem session_keys_iff_no_decrypt_fails :
    ¬ (∀ (s : Session) (i d : Bool), ReachedR s i d →
        (s.session_keys.isSome ↔ d = false)) := by
  intro hall
  have h := (hall (Session.new_remote ⟨0⟩ ⟨1⟩) false false
    (ReachedR.initRemote ⟨0⟩ ⟨1⟩)).2 rfl
  exact absurd h (by decide)

/-- C7 amended: in every reachable session state, the session keys are
present if and only if the session was constructed by the initiator
constructor and no successful decrypt call has occurred on it;
responder sessions never hold session keys, and the first successful
decrypt (and only a successful decrypt) discards them. -/
theorem session_keys_iff_initiator_no_decrypt (s : Session) (i d : Bool)
    (h : ReachedR s i d) :
    s.session_keys.isSome ↔ (i = true ∧ d = false) := by
  have h1 := (reached_inv h).1
  cases i <;> cases d <;> simp_all

/-- C7 witness: the amended statement instantiated at a freshly
constructed initiator session. -/
theorem session_keys_iff_witness :
    (Session.new ⟨0⟩ (SessionKeys.new ⟨1⟩ ⟨2⟩ ⟨3⟩) ⟨4⟩).session_keys.isSome ↔
      (true = true ∧ false = false) :=
  session_keys_iff_initiator_no_decrypt _ true false
    (ReachedR.init ⟨0⟩ (SessionKeys.new ⟨1⟩ ⟨2⟩ ⟨3⟩) ⟨4⟩)
